import Mathlib

set_option maxRecDepth 100000

/-!
Shallow embedding of the RYPC review-card application, verified against its
natural-language specification.

The embedded code comes from:
* `src/utils/aiService.ts` — review generation (retry loop, uniqueness
  hashing, canned fallback reviews);
* `src/utils/storage.ts` — dual-write persistence (localStorage plus
  best-effort Supabase sync) and row/payload transformations;
* `src/utils/auth.ts` — the hardcoded credential check;
* `src/components/TagInput.tsx` — the tag-list editing logic.

JavaScript strings are modelled as Lean `String`s; `charCodeAt`/`.length`
operate on UTF-16 code units, which agree with code points for every string
occurring here (all characters are in the Basic Multilingual Plane), so we
use `Char.toNat` and `String.length`.  `toLowerCase` is modelled by the
ASCII case mapping `String.toLower`/`Char.toLower`; no non-ASCII cased
letters occur in the repository data.  Asynchronous HTTP calls to the LLM
providers are modelled by an oracle function, and thrown JS exceptions by
`Option`/sum outcomes.
-/

/-! ### JS string helpers used by `aiService.ts` -/

/-- `String.prototype.toLowerCase`, as the ASCII case map on the
character list (kernel-reducible, unlike `String.toLower`). -/
def jsToLower (s : String) : String := String.mk (s.toList.map Char.toLower)

/-- `String.prototype.trim`, dropping leading and trailing whitespace
(kernel-reducible, unlike `String.trim`). -/
def jsTrim (s : String) : String :=
  String.mk (((s.toList.dropWhile Char.isWhitespace).reverse.dropWhile
    Char.isWhitespace).reverse)

/-- Character class `\w` of a JS regex: letters, digits and underscore. -/
def isWordChar (c : Char) : Bool := c.isAlphanum || c = '_'

/-- Character class `\s` of a JS regex, restricted to the whitespace
characters occurring in this code base. -/
def isSpaceChar (c : Char) : Bool := c.isWhitespace

/-- Replace every maximal run of whitespace by a single `' '`
(the effect of `.replace(/\s+/g, ' ')`).  The flag records whether the
previous character was whitespace. -/
def collapseWsAux : Bool → List Char → List Char
  | _, [] => []
  | prevSpace, c :: cs =>
    if isSpaceChar c then
      if prevSpace then collapseWsAux true cs
      else ' ' :: collapseWsAux true cs
    else c :: collapseWsAux false cs

/-- Drop leading and trailing spaces (the effect of `.trim()` on a string
whose whitespace has already been collapsed to `' '`). -/
def trimSpaces (cs : List Char) : List Char :=
  ((cs.dropWhile (· = ' ')).reverse.dropWhile (· = ' ')).reverse

/-- The normalisation performed at the start of
`AIReviewService.generateHash`:
`content.toLowerCase().replace(/[^\w\s]/g, '').replace(/\s+/g, ' ').trim()`. -/
def jsNormalize (content : String) : List Char :=
  trimSpaces (collapseWsAux false
    (((jsToLower content).toList).filter (fun c => isWordChar c || isSpaceChar c)))

/-- Reduce an integer into the signed 32-bit range, as JS bitwise
operators do. -/
def toInt32 (n : Int) : Int := (n + 2 ^ 31) % 2 ^ 32 - 2 ^ 31

/-- One iteration of the hash loop in `generateHash`:
`hash = ((hash << 5) - hash) + char; hash = hash & hash;`.
`hash << 5` truncates to 32 bits, the following subtraction and addition are
exact in doubles, and `hash & hash` truncates the sum back to 32 bits. -/
def hashStep (h : Int) (c : Char) : Int :=
  toInt32 (toInt32 (h * 32) - h + c.toNat)

/-- The 32-bit signed accumulator computed by the loop in `generateHash`. -/
def jsHashInt (cs : List Char) : Int := cs.foldl hashStep 0

/-- Digit character of `Number.prototype.toString(36)`. -/
def base36Digit (n : Nat) : Char :=
  if n < 10 then Char.ofNat ('0'.toNat + n)
  else Char.ofNat ('a'.toNat + (n - 10))

/-- Fuelled base-36 printer; the fuel `n + 1` always suffices because the
argument shrinks by a factor of 36 each step. -/
def toBase36Aux : Nat → Nat → List Char → List Char
  | 0, _, acc => acc
  | _ + 1, n, acc =>
    if h : n < 36 then base36Digit n :: acc
    else toBase36Aux n (n / 36) (base36Digit (n % 36) :: acc)

/-- `Math.abs(hash).toString(36)` for a natural number. -/
def natToBase36 (n : Nat) : String := String.mk (toBase36Aux (n + 1) n [])

/-- Embedding of `AIReviewService.generateHash`. -/
def generateHash (content : String) : String :=
  natToBase36 (jsHashInt (jsNormalize content)).natAbs

/-- `s.split(/\s+/)` in JS: split on maximal whitespace runs, keeping the
empty strings that arise at a leading or trailing run.  After collapsing
runs to single `' '` characters this is an ordinary split on `' '`. -/
def splitOnSpace : List Char → List Char → List String
  | [], cur => [String.mk cur.reverse]
  | c :: cs, cur =>
    if c = ' ' then String.mk cur.reverse :: splitOnSpace cs []
    else splitOnSpace cs (c :: cur)

/-- `content.split(/\s+/)` as used by `extractKeyPhrases` and
`isReviewUnique`. -/
def jsSplitWs (s : String) : List String :=
  splitOnSpace (collapseWsAux false s.toList) []

/-- The loop body of `AIReviewService.extractKeyPhrases`: for every index
`i` push the 2-word phrase `words[i] words[i+1]`, and when a third word
exists also the 3-word phrase. -/
def keyPhrasesAux : List String → List String
  | w1 :: w2 :: w3 :: rest =>
    (w1 ++ " " ++ w2) :: (w1 ++ " " ++ w2 ++ " " ++ w3) ::
      keyPhrasesAux (w2 :: w3 :: rest)
  | [w1, w2] => [w1 ++ " " ++ w2]
  | _ => []

/-- Embedding of `AIReviewService.extractKeyPhrases`. -/
def extractKeyPhrases (content : String) : List String :=
  keyPhrasesAux (jsSplitWs (jsToLower content))

/-- `Set.prototype.add` on the global `usedReviewHashes` set, modelled as a
duplicate-free insertion into a list. -/
def setAdd (s : List String) (x : String) : List String :=
  if s.contains x then s else s.concat x

/-- Embedding of `AIReviewService.isReviewUnique`: reject when the
whole-string hash is recorded, otherwise reject when any key phrase's
tagged hash is recorded. -/
def isReviewUnique (used : List String) (content : String) : Bool :=
  let hash := generateHash content
  if used.contains hash then false
  else if (extractKeyPhrases content).any
      (fun phrase => used.contains ("phrase_" ++ generateHash phrase)) then
    false
  else true

/-- Embedding of `AIReviewService.markReviewAsUsed`: record the
whole-string hash and then the tagged hash of every key phrase. -/
def markReviewAsUsed (used : List String) (content : String) : List String :=
  (extractKeyPhrases content).foldl
    (fun s phrase => setAdd s ("phrase_" ++ generateHash phrase))
    (setAdd used (generateHash content))

/-! ### Lemmas about the uniqueness detector -/

/-- Membership in `setAdd`. -/
theorem mem_setAdd {s : List String} {x y : String} :
    x ∈ setAdd s y ↔ x ∈ s ∨ x = y := by
  unfold setAdd
  split
  · rename_i h
    rw [List.elem_iff] at h
    constructor
    · exact Or.inl
    · rintro (hx | rfl)
      · exact hx
      · exact h
  · simp [List.concat_eq_append]

/-- Membership after folding `setAdd` over a list of phrases. -/
theorem mem_foldl_setAdd (f : String → String) :
    ∀ (l : List String) (s : List String) (x : String),
      x ∈ l.foldl (fun acc p => setAdd acc (f p)) s ↔
        x ∈ s ∨ ∃ p ∈ l, x = f p := by
  intro l
  induction l with
  | nil => intro s x; simp
  | cons p l ih =>
    intro s x
    rw [List.foldl_cons, ih, mem_setAdd]
    constructor
    · rintro ((hx | rfl) | ⟨q, hq, rfl⟩)
      · exact Or.inl hx
      · exact Or.inr ⟨p, List.mem_cons_self _ _, rfl⟩
      · exact Or.inr ⟨q, List.mem_cons_of_mem _ hq, rfl⟩
    · rintro (hx | ⟨q, hq, rfl⟩)
      · exact Or.inl (Or.inl hx)
      · rcases List.mem_cons.1 hq with rfl | hq
        · exact Or.inl (Or.inr rfl)
        · exact Or.inr ⟨q, hq, rfl⟩

/-- Exactly which hashes `markReviewAsUsed` records. -/
theorem mem_markReviewAsUsed {used : List String} {c x : String} :
    x ∈ markReviewAsUsed used c ↔
      x ∈ used ∨ x = generateHash c ∨
        ∃ p ∈ extractKeyPhrases c, x = "phrase_" ++ generateHash p := by
  unfold markReviewAsUsed
  rw [mem_foldl_setAdd, mem_setAdd]
  tauto

/-- Exactly which hashes `isReviewUnique` consults. -/
theorem isReviewUnique_eq_true_iff {used : List String} {c : String} :
    isReviewUnique used c = true ↔
      generateHash c ∉ used ∧
        ∀ p ∈ extractKeyPhrases c, ("phrase_" ++ generateHash p) ∉ used := by
  have hcont : ∀ (l : List String) (a : String), l.contains a = true ↔ a ∈ l :=
    fun l a => List.elem_iff
  unfold isReviewUnique
  by_cases hm : generateHash c ∈ used
  · rw [if_pos ((hcont _ _).2 hm)]
    simp only [Bool.false_eq_true, false_iff]
    rintro ⟨hA, -⟩
    exact hA hm
  · rw [if_neg (fun hc => hm ((hcont _ _).1 hc))]
    by_cases hp : ∃ p ∈ extractKeyPhrases c, ("phrase_" ++ generateHash p) ∈ used
    · rw [if_pos]
      · simp only [Bool.false_eq_true, false_iff]
        rintro ⟨-, hB⟩
        obtain ⟨p, hpmem, hin⟩ := hp
        exact hB p hpmem hin
      · rw [List.any_eq_true]
        obtain ⟨p, hpmem, hin⟩ := hp
        exact ⟨p, hpmem, (hcont _ _).2 hin⟩
    · rw [if_neg]
      · simp only [true_iff]
        exact ⟨hm, fun p hpmem hin => hp ⟨p, hpmem, hin⟩⟩
      · rw [List.any_eq_true]
        rintro ⟨p, hpmem, hin⟩
        exact hp ⟨p, hpmem, (hcont _ _).1 hin⟩

/-- C3: after `markReviewAsUsed(c)` has run, `isReviewUnique(c)` is
`false`; `markReviewAsUsed` records the whole-string hash of `c` together
with the tagged hash of every normalised 2- and 3-word phrase of `c`, and
`isReviewUnique` checks exactly those hashes. -/
theorem claim_C3_mark_then_not_unique :
    ∀ (used : List String) (c : String),
      isReviewUnique (markReviewAsUsed used c) c = false
      ∧ (∀ x, x ∈ markReviewAsUsed used c ↔
          x ∈ used ∨ x = generateHash c ∨
            ∃ p ∈ extractKeyPhrases c, x = "phrase_" ++ generateHash p)
      ∧ (isReviewUnique used c = true ↔
          generateHash c ∉ used ∧
            ∀ p ∈ extractKeyPhrases c, ("phrase_" ++ generateHash p) ∉ used) := by
  intro used c
  have hmem : generateHash c ∈ markReviewAsUsed used c :=
    mem_markReviewAsUsed.2 (Or.inr (Or.inl rfl))
  refine ⟨?_, fun x => mem_markReviewAsUsed, isReviewUnique_eq_true_iff⟩
  cases h : isReviewUnique (markReviewAsUsed used c) c with
  | false => rfl
  | true => exact absurd hmem (isReviewUnique_eq_true_iff.1 h).1

/-- Concrete instance of `claim_C3_mark_then_not_unique`. -/
theorem claim_C3_witness :
    isReviewUnique (markReviewAsUsed [] "good care team") "good care team" = false :=
  (claim_C3_mark_then_not_unique [] "good care team").1

/-! ### Review generation data model (`aiService.ts`) -/

/-- Embedding of the `ReviewRequest` interface.  Optional TS fields are
`Option`s; `starRating` is a natural number. -/
structure ReviewRequest where
  businessName : String
  category : String
  type : String
  highlights : Option String
  selectedServices : Option (List String)
  starRating : Nat
  language : Option String
  tone : Option String
  useCase : Option String
deriving DecidableEq, Repr

/-- Embedding of the `GeneratedReview` interface. -/
structure GeneratedReview where
  text : String
  hash : String
  language : String
  rating : Nat
deriving DecidableEq, Repr

/-- The `medicalFallbacks` table of `getMedicalFallbackReview`, with the
`${businessName}` interpolations applied to `bn`. -/
def medicalFallbacks (bn : String) (rating : Nat) :
    Option (List (String × List String)) :=
  match rating with
  | 1 => some [
      ("English",
       ["Had issues with medical care at " ++ bn ++ ". Long waiting time and staff wasn\x27t very helpful. Expected better treatment quality.",
        "Not satisfied with consultation. " ++ bn ++ " needs improvement in patient care and service quality. Disappointing experience."]),
      ("Hindi",
       [bn ++ " में इलाज से संतुष्ट नहीं हूं। डॉक्टर से मिलने में बहुत देर लगी और स्टाफ भी सहायक नहीं था।",
        "चिकित्सा सेवा में सुधार की जरूरत है। " ++ bn ++ " में अनुभव निराशाजनक रहा। बेहतर उम्मीद थी।"]),
      ("Gujarati",
       [bn ++ " માં તબીબી સેવામાં સમસ્યા હતી। ડૉક્ટરને મળવામાં ઘણો સમય લાગ્યો અને સ્ટાફ પણ મદદરૂપ નહોતો.",
        "સારવારની ગુણવત્તામાં સુધારાની જરૂર છે. " ++ bn ++ " માં અનુભવ નિરાશાજનક રહ્યો હતો."])]
  | 2 => some [
      ("English",
       ["Average medical experience at " ++ bn ++ ". Some good aspects but room for improvement in patient care and facility management.",
        "Mixed experience with treatment. " ++ bn ++ " has potential but needs better organization and patient handling."]),
      ("Hindi",
       [bn ++ " में औसत चिकित्सा अनुभव रहा। कुछ अच्छे पहलू थे लेकिन मरीज़ों की देखभाल में सुधार की जरूरत है।",
        "इलाज का मिश्रित अनुभव रहा। " ++ bn ++ " में संभावना है लेकिन बेहतर व्यवस्था की जरूरत है।"]),
      ("Gujarati",
       [bn ++ " માં સરેરાશ તબીબી અનુભવ રહ્યો. કેટલાક સારા પાસાં હતા પણ દર્દીઓની સંભાળમાં સુધારાની જરૂર છે.",
        "સારવારનો મિશ્ર અનુભવ રહ્યો. " ++ bn ++ " માં સંભાવના છે પણ વધુ સારી વ્યવસ્થાની જરૂર છે."])]
  | 3 => some [
      ("English",
       ["Good medical care at " ++ bn ++ ". Doctors were knowledgeable and staff was helpful. Overall satisfied with treatment quality.",
        "Decent healthcare experience. " ++ bn ++ " provided good consultation and proper treatment. Would recommend for medical needs."]),
      ("Hindi",
       [bn ++ " में अच्छी चिकित्सा सेवा मिली। डॉक्टर जानकार थे और स्टाफ सहायक था। इलाज की गुणवत्ता से संतुष्ट हूं।",
        "अच्छा स्वास्थ्य सेवा अनुभव रहा। " ++ bn ++ " में उचित परामर्श और इलाज मिला। सिफारिश करूंगा।"]),
      ("Gujarati",
       [bn ++ " માં સારી તબીબી સેવા મળી. ડૉક્ટરો જાણકાર હતા અને સ્ટાફ મદદરૂપ હતો. સારવારની ગુણવત્તાથી સંતુષ્ટ છું.",
        "સારો આરોગ્ય સેવા અનુભવ રહ્યો. " ++ bn ++ " માં યોગ્ય સલાહ અને સારવાર મળી. ભલામણ કરીશ."])]
  | 4 => some [
      ("English",
       ["Excellent medical care at " ++ bn ++ "! Professional doctors and caring staff. Very satisfied with treatment and would highly recommend.",
        "Great healthcare experience. " ++ bn ++ " provided top-quality medical service with expert doctors. Highly recommend to others."]),
      ("Hindi",
       [bn ++ " में उत्कृष्ट चिकित्सा सेवा! पेशेवर डॉक्टर और देखभाल करने वाला स्टाफ। इलाज से बहुत संतुष्ट हूं।",
        "शानदार स्वास्थ्य सेवा अनुभव रहा। " ++ bn ++ " में विशेषज्ञ डॉक्टरों के साथ उच्च गुणवत्ता की सेवा मिली।"]),
      ("Gujarati",
       [bn ++ " માં ઉત્કૃષ્ટ તબીબી સેવા! વ્યાવસાયિક ડૉક્ટરો અને સંભાળ રાખનારો સ્ટાફ. સારવારથી ખૂબ સંતુષ્ટ છું.",
        "શાનદાર આરોગ્ય સેવા અનુભવ રહ્યો. " ++ bn ++ " માં નિષ્ણાત ડૉક્ટરો સાથે ઉચ્ચ ગુણવત્તાની સેવા મળી."])]
  | 5 => some [
      ("English",
       ["Outstanding medical care at " ++ bn ++ "! Exceptional doctors, excellent staff, and top-quality treatment. Highly recommend to everyone!",
        "Absolutely excellent healthcare! " ++ bn ++ " provided world-class medical service with caring doctors. Perfect experience, 5 stars!"]),
      ("Hindi",
       [bn ++ " में अद्भुत चिकित्सा सेवा! असाधारण डॉक्टर, उत्कृष्ट स्टाफ और उच्च गुणवत्ता का इलाज। सभी को सिफारिश!",
        "बिल्कुल उत्कृष्ट स्वास्थ्य सेवा! " ++ bn ++ " में देखभाल करने वाले डॉक्टरों के साथ विश्व स्तरीय सेवा मिली।"]),
      ("Gujarati",
       [bn ++ " માં અદ્ભુત તબીબી સેવા! અસાધારણ ડૉક્ટરો, ઉત્કૃષ્ટ સ્ટાફ અને ઉચ્ચ ગુણવત્તાની સારવાર. બધાને ભલામણ!",
        "બિલકુલ ઉત્કૃષ્ટ આરોગ્ય સેવા! " ++ bn ++ " માં સંભાળ રાખનારા ડૉક્ટરો સાથે વિશ્વ સ્તરીય સેવા મળી."])]
  | _ => none

/-- The fallback string chosen by `getMedicalFallbackReview` before length
adjustment: `medicalFallbacks[starRating] || medicalFallbacks[5]`, then
`ratingFallbacks[language] || ratingFallbacks["English"]`, then a random
index.  `pick % length` models `Math.floor(Math.random() * length)`,
always in range because each bank has two entries. -/
def selectedMedicalFallback (bn : String) (starRating : Nat)
    (language : Option String) (pick : Nat) : String :=
  let ratingFallbacks :=
    (medicalFallbacks bn starRating).getD ((medicalFallbacks bn 5).getD [])
  let languageFallbacks :=
    (language.bind (fun l => ratingFallbacks.lookup l)).getD
      ((ratingFallbacks.lookup "English").getD [])
  let randomIndex := pick % languageFallbacks.length
  languageFallbacks.getD randomIndex ""

/-- Embedding of `AIReviewService.getMedicalFallbackReview`: choose a
canned string, pad with `" Great care!"` when shorter than 155, truncate
to `substring(0, 167) + "..."` when longer than 170, and hash the adjusted
string with the timestamp appended. -/
def getMedicalFallbackReview (request : ReviewRequest)
    (pick timestamp : Nat) : GeneratedReview :=
  let selectedFallback :=
    selectedMedicalFallback request.businessName request.starRating
      request.language pick
  let s1 :=
    if selectedFallback.length < 155 then selectedFallback ++ " Great care!"
    else selectedFallback
  let s2 :=
    if s1.length > 170 then String.mk (s1.toList.take 167) ++ "..."
    else s1
  { text := s2
    hash := generateHash (s2 ++ toString timestamp)
    language := request.language.getD "English"
    rating := request.starRating }

/-- The two length-adjustment statements at the end of
`getMedicalFallbackReview`, factored out of the embedding above:
append `" Great care!"` below 155 characters, truncate above 170. -/
def adjustFallbackLength (s : String) : String :=
  let s1 := if s.length < 155 then s ++ " Great care!" else s
  if s1.length > 170 then String.mk (s1.toList.take 167) ++ "..." else s1

theorem adjustFallbackLength_le (s : String) :
    (adjustFallbackLength s).length ≤ 170 := by
  unfold adjustFallbackLength
  have h12 : (" Great care!" : String).length = 12 := rfl
  have hdots : ("..." : String).length = 3 := rfl
  by_cases h1 : s.length < 155
  · rw [if_pos h1]
    have hlen : (s ++ " Great care!").length = s.length + 12 := by
      rw [String.length_append, h12]
    rw [if_neg (by omega)]
    omega
  · rw [if_neg h1]
    by_cases h2 : s.length > 170
    · rw [if_pos h2]
      rw [String.length_append, hdots]
      have hmk : (String.mk (s.toList.take 167)).length =
          (s.toList.take 167).length := rfl
      have hl : s.toList.length = s.length := rfl
      rw [hmk, List.length_take, hl]
      omega
    · rw [if_neg h2]
      omega

theorem adjustFallbackLength_ge (s : String) (h : 143 ≤ s.length) :
    155 ≤ (adjustFallbackLength s).length := by
  unfold adjustFallbackLength
  have h12 : (" Great care!" : String).length = 12 := rfl
  have hdots : ("..." : String).length = 3 := rfl
  by_cases h1 : s.length < 155
  · rw [if_pos h1]
    have hlen : (s ++ " Great care!").length = s.length + 12 := by
      rw [String.length_append, h12]
    rw [if_neg (by omega)]
    omega
  · rw [if_neg h1]
    by_cases h2 : s.length > 170
    · rw [if_pos h2]
      rw [String.length_append, hdots]
      have hmk : (String.mk (s.toList.take 167)).length =
          (s.toList.take 167).length := rfl
      have hl : s.toList.length = s.length := rfl
      rw [hmk, List.length_take, hl]
      omega
    · rw [if_neg h2]
      omega

/-- C4, amended: the fallback text never exceeds 170 characters, and it
reaches the 155-character floor whenever the selected canned string is at
least 143 characters long (so that appending `" Great care!"` suffices).
The unconditional 155 lower bound of the original claim is false: a short
business name leaves the padded string below 155. -/
theorem claim_C4_fallback_length :
    ∀ (request : ReviewRequest) (pick timestamp : Nat),
      (getMedicalFallbackReview request pick timestamp).text.length ≤ 170
      ∧ (143 ≤ (selectedMedicalFallback request.businessName
            request.starRating request.language pick).length →
          155 ≤ (getMedicalFallbackReview request pick timestamp).text.length) := by
  intro request pick timestamp
  have htext : (getMedicalFallbackReview request pick timestamp).text =
      adjustFallbackLength (selectedMedicalFallback request.businessName
        request.starRating request.language pick) := rfl
  rw [htext]
  exact ⟨adjustFallbackLength_le _, fun h => adjustFallbackLength_ge _ h⟩

/-- A one-letter business name with rating 1 in English. -/
def shortNameRequest : ReviewRequest :=
  { businessName := "A", category := "Health & Medical", type := "Hospital",
    highlights := none, selectedServices := none, starRating := 1,
    language := some "English", tone := none, useCase := none }

/-- The original C4 claim is false on the code: for `shortNameRequest` the
fallback text has 130 characters, below the claimed 155 floor. -/
theorem claim_C4_counterexample :
    ¬ (155 ≤ (getMedicalFallbackReview shortNameRequest 0 0).text.length ∧
        (getMedicalFallbackReview shortNameRequest 0 0).text.length ≤ 170) := by
  decide

/-- A long business name with rating 5. -/
def longNameRequest : ReviewRequest :=
  { businessName := "Smit Hospital Varachha Surat",
    category := "Health & Medical", type := "Hospital",
    highlights := none, selectedServices := none, starRating := 5,
    language := some "English", tone := none, useCase := none }

/-- Concrete instance of `claim_C4_fallback_length`. -/
theorem claim_C4_witness :
    155 ≤ (getMedicalFallbackReview longNameRequest 0 0).text.length :=
  (claim_C4_fallback_length longNameRequest 0 0).2 (by decide)

/-! ### The retry loop of `AIReviewService.generateReview`

The two nested `for` loops are embedded as structural recursions over the
remaining configurations and the remaining attempts.  One LLM call (Gemini
or OpenAI — both providers reach the same validation code) is modelled by
an oracle `Nat → Nat → Option String` giving, for configuration index `ci`
and attempt number `attempt`, either the trimmed text the call produced or
`none` for a thrown error.  Prompt construction only affects the request
payload sent to the external API, so it is absorbed into the oracle.  Each
loop returns, besides the source's result, a ghost trace listing the
`(configuration index, attempt number)` of every LLM call performed. -/

/-- The `'gemini' | 'openai'` union of the `ApiConfiguration` interface. -/
inductive Provider where
  | gemini
  | openai
deriving DecidableEq, Repr

/-- Embedding of the `ApiConfiguration` interface. -/
structure ApiConfiguration where
  id : String
  name : String
  provider : Provider
  apiKey : String
  model : String
  isActive : Bool
  priority : Int
  createdAt : String
  updatedAt : String
deriving DecidableEq, Repr

/-- The comparator of `getActiveApiConfigs`:
`.sort((a, b) => a.priority - b.priority)`, ascending priority. -/
def cfgLe (a b : ApiConfiguration) : Prop := a.priority ≤ b.priority

instance : DecidableRel cfgLe :=
  fun a b => decidable_of_iff (a.priority ≤ b.priority) Iff.rfl

instance : IsTotal ApiConfiguration cfgLe :=
  ⟨fun a b => le_total a.priority b.priority⟩

instance : IsTrans ApiConfiguration cfgLe :=
  ⟨fun _ _ _ hab hbc => le_trans hab hbc⟩

/-- Embedding of `AIReviewService.getActiveApiConfigs` (the successful
branch: configurations fetched from storage, filtered to active entries
with a non-blank key, sorted by ascending priority; JS `Array.sort` is
stable, as is insertion sort.  The catch branch, which falls back to an
environment variable when the storage fetch itself throws, is I/O and not
modelled). -/
def getActiveApiConfigs (storedConfigs : List ApiConfiguration) :
    List ApiConfiguration :=
  List.insertionSort cfgLe
    (storedConfigs.filter (fun c => c.isActive && jsTrim c.apiKey != ""))

/-- The inner `for (let attempt = 0; attempt < maxRetries; attempt++)`
loop: call the oracle; on a thrown error continue; on a returned text
accept it exactly when the character count lies in `[155, 170]` and
`isReviewUnique` holds, in which case the review and the updated hash set
are returned. -/
def runAttempts (oracle : Nat → Nat → Option String) (ci : Nat)
    (selectedLanguage : String) (starRating : Nat) (used : List String) :
    Nat → Nat → Option (GeneratedReview × List String) × List (Nat × Nat)
  | _, 0 => (none, [])
  | attempt, remaining + 1 =>
    match oracle ci attempt with
    | none =>
      let rest := runAttempts oracle ci selectedLanguage starRating used
        (attempt + 1) remaining
      (rest.fst, (ci, attempt) :: rest.snd)
    | some reviewText =>
      if 155 ≤ reviewText.length ∧ reviewText.length ≤ 170 ∧
          isReviewUnique used reviewText = true then
        (some ({ text := reviewText, hash := generateHash reviewText,
                 language := selectedLanguage, rating := starRating },
               markReviewAsUsed used reviewText),
         [(ci, attempt)])
      else
        let rest := runAttempts oracle ci selectedLanguage starRating used
          (attempt + 1) remaining
        (rest.fst, (ci, attempt) :: rest.snd)

/-- The outer `for (const apiConfig of apiConfigs)` loop, iterating over
configuration indices. -/
def runConfigs (oracle : Nat → Nat → Option String)
    (selectedLanguage : String) (starRating : Nat) (maxRetries : Nat)
    (used : List String) :
    Nat → Nat → Option (GeneratedReview × List String) × List (Nat × Nat)
  | _, 0 => (none, [])
  | ci, remaining + 1 =>
    let thisConfig := runAttempts oracle ci selectedLanguage starRating used
      0 maxRetries
    match thisConfig.fst with
    | some r => (some r, thisConfig.snd)
    | none =>
      let rest := runConfigs oracle selectedLanguage starRating maxRetries
        used (ci + 1) remaining
      (rest.fst, thisConfig.snd ++ rest.snd)

/-- Whether `generateReview` answered from a successful API call or from
the canned fallback. -/
inductive GenResult where
  | fromApi (review : GeneratedReview)
  | fromFallback (review : GeneratedReview)
deriving DecidableEq, Repr

/-- The `languageOptions` array of `generateReview`. -/
def languageOptions : List String := ["English", "Gujarati", "Hindi"]

/-- Embedding of `AIReviewService.generateReview`.  The random choices are
parameters: `langPick` selects the language when the request names none,
`fbPick` and `timestamp` feed the fallback path.  The result pairs the
source's return value (or the thrown error, as `Except.error`) with the
ghost trace of LLM calls. -/
def generateReview (request : ReviewRequest) (maxRetries : Nat)
    (storedConfigs : List ApiConfiguration)
    (oracle : Nat → Nat → Option String) (used : List String)
    (langPick fbPick timestamp : Nat) :
    Except String (GenResult × List String) × List (Nat × Nat) :=
  let apiConfigs := getActiveApiConfigs storedConfigs
  if apiConfigs.length = 0 then
    (Except.error
      "No active API configurations found. Please configure APIs in admin panel.",
     [])
  else
    let selectedLanguage := request.language.getD
      (languageOptions.getD (langPick % languageOptions.length) "English")
    let result := runConfigs oracle selectedLanguage request.starRating
      maxRetries used 0 apiConfigs.length
    match result.fst with
    | some (r, u1) => (Except.ok (GenResult.fromApi r, u1), result.snd)
    | none =>
      (Except.ok
        (GenResult.fromFallback (getMedicalFallbackReview request fbPick timestamp),
         used),
       result.snd)

/-! ### Lemmas about the retry loop -/

/-- Any review accepted by the attempt loop passed the length check, was
unique against the hash set, carries the hash of its own text, and the
returned hash set is the marked one. -/
theorem runAttempts_accepted {oracle : Nat → Nat → Option String} {ci : Nat}
    {selLang : String} {sr : Nat} {used : List String} :
    ∀ (remaining attempt : Nat) (r : GeneratedReview) (u : List String),
      (runAttempts oracle ci selLang sr used attempt remaining).fst = some (r, u) →
      155 ≤ r.text.length ∧ r.text.length ≤ 170 ∧
        r.hash = generateHash r.text ∧ isReviewUnique used r.text = true ∧
        u = markReviewAsUsed used r.text := by
  intro remaining
  induction remaining with
  | zero =>
    intro attempt r u h
    simp [runAttempts] at h
  | succ rem ih =>
    intro attempt r u h
    simp only [runAttempts] at h
    split at h
    · exact ih (attempt + 1) r u h
    · split at h
      · rename_i reviewText hcond
        simp only [Option.some.injEq, Prod.mk.injEq] at h
        obtain ⟨hr, hu⟩ := h
        obtain ⟨hc1, hc2, hc3⟩ := hcond
        subst hr
        subst hu
        exact ⟨hc1, hc2, rfl, hc3, rfl⟩
      · exact ih (attempt + 1) r u h

/-- `runConfigs` only returns reviews accepted by some attempt loop. -/
theorem runConfigs_accepted {oracle : Nat → Nat → Option String}
    {selLang : String} {sr maxRetries : Nat} {used : List String} :
    ∀ (remaining ci : Nat) (r : GeneratedReview) (u : List String),
      (runConfigs oracle selLang sr maxRetries used ci remaining).fst = some (r, u) →
      155 ≤ r.text.length ∧ r.text.length ≤ 170 ∧
        r.hash = generateHash r.text ∧ isReviewUnique used r.text = true ∧
        u = markReviewAsUsed used r.text := by
  intro remaining
  induction remaining with
  | zero =>
    intro ci r u h
    simp [runConfigs] at h
  | succ rem ih =>
    intro ci r u h
    simp only [runConfigs] at h
    split at h
    · rename_i p heq
      simp only [Option.some.injEq] at h
      subst h
      exact runAttempts_accepted maxRetries 0 r u heq
    · exact ih (ci + 1) r u h

/-- C2: a review returned from a successful API call has between 155 and
170 characters, is exactly the validated text, and its `hash` field is
`generateHash` of that text (the returned hash set being the marked
one). -/
theorem claim_C2_api_review_validated :
    ∀ (request : ReviewRequest) (maxRetries : Nat)
      (storedConfigs : List ApiConfiguration)
      (oracle : Nat → Nat → Option String) (used : List String)
      (langPick fbPick timestamp : Nat) (r : GeneratedReview)
      (u : List String) (trace : List (Nat × Nat)),
      generateReview request maxRetries storedConfigs oracle used langPick
          fbPick timestamp = (Except.ok (GenResult.fromApi r, u), trace) →
      155 ≤ r.text.length ∧ r.text.length ≤ 170 ∧
        r.hash = generateHash r.text ∧ u = markReviewAsUsed used r.text := by
  intro request maxRetries storedConfigs oracle used langPick fbPick
    timestamp r u trace h
  unfold generateReview at h
  dsimp only at h
  split at h
  · simp at h
  · split at h
    all_goals simp only [Prod.mk.injEq, Except.ok.injEq] at h
    all_goals try exact (GenResult.noConfusion h.1.1)
    all_goals
      obtain ⟨⟨hr, hu⟩, -⟩ := h
      injection hr with hr
      subst hr
      subst hu
      rename_i heq
      obtain ⟨h1, h2, h3, -, h5⟩ := runConfigs_accepted _ _ _ _ heq
      exact ⟨h1, h2, h3, h5⟩

/-- A single active Gemini configuration. -/
def demoConfig : ApiConfiguration :=
  { id := "cfg-1", name := "Primary Gemini", provider := Provider.gemini,
    apiKey := "demo-key", model := "gemini-2.0-flash", isActive := true,
    priority := 1, createdAt := "", updatedAt := "" }

/-- A 160-character review text. -/
def demoText : String := String.mk (List.replicate 160 'a')

/-- A concrete review request. -/
def demoRequest : ReviewRequest :=
  { businessName := "Smit Hospital", category := "Health & Medical",
    type := "Hospital", highlights := none, selectedServices := none,
    starRating := 5, language := some "English", tone := none,
    useCase := none }

/-- The review `generateReview` produces for `demoRequest` when every call
returns `demoText`. -/
def demoReview : GeneratedReview :=
  { text := demoText, hash := generateHash demoText, language := "English",
    rating := 5 }

/-- Concrete instance of `claim_C2_api_review_validated`. -/
theorem claim_C2_witness :
    155 ≤ demoReview.text.length ∧ demoReview.text.length ≤ 170 ∧
      demoReview.hash = generateHash demoReview.text ∧
      markReviewAsUsed [] demoText = markReviewAsUsed [] demoReview.text :=
  claim_C2_api_review_validated demoRequest 5 [demoConfig]
    (fun _ _ => some demoText) [] 0 0 0 demoReview
    (markReviewAsUsed [] demoText) [(0, 0)] (by rfl)

/-- An LLM call outcome is rejected when it threw, or when its text fails
the length check or the uniqueness check against the hash set. -/
def rejectedCall (used : List String) (outcome : Option String) : Prop :=
  ∀ t, outcome = some t →
    ¬ (155 ≤ t.length ∧ t.length ≤ 170 ∧ isReviewUnique used t = true)

/-- If every remaining attempt is rejected, the attempt loop yields no
review. -/
theorem runAttempts_none {oracle : Nat → Nat → Option String} {ci : Nat}
    {selLang : String} {sr : Nat} {used : List String} :
    ∀ (remaining attempt : Nat),
      (∀ a, attempt ≤ a → a < attempt + remaining →
        rejectedCall used (oracle ci a)) →
      (runAttempts oracle ci selLang sr used attempt remaining).fst = none := by
  intro remaining
  induction remaining with
  | zero => intro attempt _; rfl
  | succ rem ih =>
    intro attempt h
    simp only [runAttempts]
    cases ho : oracle ci attempt with
    | none =>
      simp only []
      exact ih (attempt + 1) (fun a h1 h2 => h a (by omega) (by omega))
    | some t =>
      simp only []
      rw [if_neg (h attempt (le_refl _) (by omega) t ho)]
      exact ih (attempt + 1) (fun a h1 h2 => h a (by omega) (by omega))

/-- If every attempt of every remaining configuration is rejected, the
configuration loop yields no review. -/
theorem runConfigs_none {oracle : Nat → Nat → Option String}
    {selLang : String} {sr maxRetries : Nat} {used : List String} :
    ∀ (remaining ci : Nat),
      (∀ j a, ci ≤ j → j < ci + remaining → a < maxRetries →
        rejectedCall used (oracle j a)) →
      (runConfigs oracle selLang sr maxRetries used ci remaining).fst = none := by
  intro remaining
  induction remaining with
  | zero => intro ci _; rfl
  | succ rem ih =>
    intro ci h
    have hra : (runAttempts oracle ci selLang sr used 0 maxRetries).fst = none :=
      runAttempts_none maxRetries 0
        (fun a _ h2 => h ci a (le_refl _) (by omega) (by omega))
    simp only [runConfigs, hra]
    exact ih (ci + 1) (fun j a h1 h2 h3 => h j a (by omega) (by omega) h3)

/-- C1: when at least one configuration is active and every LLM call over
every configuration and retry either throws or produces a rejected text,
`generateReview` returns the canned `getMedicalFallbackReview` review (with
the hash set unchanged) instead of raising an error. -/
theorem claim_C1_all_rejected_falls_back :
    ∀ (request : ReviewRequest) (maxRetries : Nat)
      (storedConfigs : List ApiConfiguration)
      (oracle : Nat → Nat → Option String) (used : List String)
      (langPick fbPick timestamp : Nat),
      getActiveApiConfigs storedConfigs ≠ [] →
      (∀ ci a, ci < (getActiveApiConfigs storedConfigs).length →
        a < maxRetries → rejectedCall used (oracle ci a)) →
      (generateReview request maxRetries storedConfigs oracle used langPick
          fbPick timestamp).fst =
        Except.ok
          (GenResult.fromFallback
            (getMedicalFallbackReview request fbPick timestamp), used) := by
  intro request maxRetries storedConfigs oracle used langPick fbPick
    timestamp hne hrej
  unfold generateReview
  dsimp only
  rw [if_neg (fun h0 => hne (List.length_eq_zero.1 h0))]
  have hrc :
      (runConfigs oracle
        (request.language.getD
          (languageOptions.getD (langPick % languageOptions.length) "English"))
        request.starRating maxRetries used 0
        (getActiveApiConfigs storedConfigs).length).fst = none :=
    runConfigs_none _ 0 (fun j a h1 h2 h3 => hrej j a (by omega) h3)
  simp only [hrc]

/-- Concrete instance of `claim_C1_all_rejected_falls_back`: one active
configuration whose every call throws. -/
theorem claim_C1_witness :
    (generateReview demoRequest 5 [demoConfig] (fun _ _ => none) [] 0 0 0).fst =
      Except.ok
        (GenResult.fromFallback (getMedicalFallbackReview demoRequest 0 0),
         []) :=
  claim_C1_all_rejected_falls_back demoRequest 5 [demoConfig]
    (fun _ _ => none) [] 0 0 0 (by decide)
    (fun _ _ _ _ => fun _ ht => Option.noConfusion ht)

/-- The attempt loop performs at most `remaining` LLM calls. -/
theorem runAttempts_trace_length {oracle : Nat → Nat → Option String}
    {ci : Nat} {selLang : String} {sr : Nat} {used : List String} :
    ∀ (remaining attempt : Nat),
      (runAttempts oracle ci selLang sr used attempt remaining).snd.length ≤
        remaining := by
  intro remaining
  induction remaining with
  | zero => intro attempt; simp [runAttempts]
  | succ rem ih =>
    intro attempt
    simp only [runAttempts]
    cases ho : oracle ci attempt with
    | none =>
      simp only [List.length_cons]
      exact Nat.succ_le_succ (ih (attempt + 1))
    | some t =>
      simp only []
      by_cases hc : 155 ≤ t.length ∧ t.length ≤ 170 ∧
          isReviewUnique used t = true
      · rw [if_pos hc]
        simp
      · rw [if_neg hc]
        simp only [List.length_cons]
        exact Nat.succ_le_succ (ih (attempt + 1))

/-- Every call in the attempt loop's trace belongs to its configuration. -/
theorem runAttempts_trace_ci {oracle : Nat → Nat → Option String}
    {ci : Nat} {selLang : String} {sr : Nat} {used : List String} :
    ∀ (remaining attempt : Nat) (p : Nat × Nat),
      p ∈ (runAttempts oracle ci selLang sr used attempt remaining).snd →
      p.fst = ci := by
  intro remaining
  induction remaining with
  | zero => intro attempt p hp; simp [runAttempts] at hp
  | succ rem ih =>
    intro attempt p
    simp only [runAttempts]
    cases ho : oracle ci attempt with
    | none =>
      simp only [List.mem_cons]
      rintro (rfl | hp)
      · rfl
      · exact ih (attempt + 1) p hp
    | some t =>
      simp only []
      by_cases hc : 155 ≤ t.length ∧ t.length ≤ 170 ∧
          isReviewUnique used t = true
      · rw [if_pos hc]
        simp only [List.mem_singleton]
        rintro rfl
        rfl
      · rw [if_neg hc]
        simp only [List.mem_cons]
        rintro (rfl | hp)
        · rfl
        · exact ih (attempt + 1) p hp

/-- The configuration loop performs at most
`remaining * maxRetries` LLM calls. -/
theorem runConfigs_trace_length {oracle : Nat → Nat → Option String}
    {selLang : String} {sr maxRetries : Nat} {used : List String} :
    ∀ (remaining ci : Nat),
      (runConfigs oracle selLang sr maxRetries used ci remaining).snd.length ≤
        remaining * maxRetries := by
  intro remaining
  induction remaining with
  | zero => intro ci; simp [runConfigs]
  | succ rem ih =>
    intro ci
    simp only [runConfigs]
    split
    · calc (runAttempts oracle ci selLang sr used 0 maxRetries).snd.length
          ≤ maxRetries := runAttempts_trace_length maxRetries 0
        _ ≤ (rem + 1) * maxRetries := by
            rw [Nat.succ_mul]; omega
    · simp only [List.length_append]
      have h1 := @runAttempts_trace_length oracle ci selLang sr used
        maxRetries 0
      have h2 := ih (ci + 1)
      rw [Nat.succ_mul]
      omega

/-- Configuration indices in the configuration loop's trace are at least
the starting index. -/
theorem runConfigs_trace_ci_ge {oracle : Nat → Nat → Option String}
    {selLang : String} {sr maxRetries : Nat} {used : List String} :
    ∀ (remaining ci : Nat) (p : Nat × Nat),
      p ∈ (runConfigs oracle selLang sr maxRetries used ci remaining).snd →
      ci ≤ p.fst := by
  intro remaining
  induction remaining with
  | zero => intro ci p hp; simp [runConfigs] at hp
  | succ rem ih =>
    intro ci p
    simp only [runConfigs]
    split
    · intro hp
      exact le_of_eq (runAttempts_trace_ci maxRetries 0 p hp).symm
    · simp only [List.mem_append]
      rintro (hp | hp)
      · exact le_of_eq (runAttempts_trace_ci maxRetries 0 p hp).symm
      · exact le_trans (by omega) (ih (ci + 1) p hp)

/-- The configuration loop performs at most `maxRetries` LLM calls for any
single configuration index. -/
theorem runConfigs_trace_countP {oracle : Nat → Nat → Option String}
    {selLang : String} {sr maxRetries : Nat} {used : List String} :
    ∀ (remaining ci i : Nat),
      ((runConfigs oracle selLang sr maxRetries used ci remaining).snd.countP
        (fun p => p.fst == i)) ≤ maxRetries := by
  intro remaining
  induction remaining with
  | zero => intro ci i; simp [runConfigs]
  | succ rem ih =>
    intro ci i
    simp only [runConfigs]
    split
    · exact le_trans (List.countP_le_length _)
        (runAttempts_trace_length maxRetries 0)
    · rw [List.countP_append]
      by_cases hi : i = ci
      · subst hi
        have hz : ((runConfigs oracle selLang sr maxRetries used (i + 1)
            rem).snd.countP (fun p => p.fst == i)) = 0 := by
          rw [List.countP_eq_zero]
          intro p hp
          have := runConfigs_trace_ci_ge rem (i + 1) p hp
          simp only [beq_iff_eq]
          omega
        rw [hz]
        have h1 := le_trans (List.countP_le_length (fun p => p.fst == i))
          (@runAttempts_trace_length oracle i selLang sr used maxRetries 0)
        omega
      · have hz : ((runAttempts oracle ci selLang sr used 0
            maxRetries).snd.countP (fun p => p.fst == i)) = 0 := by
          rw [List.countP_eq_zero]
          intro p hp
          have := runAttempts_trace_ci maxRetries 0 p hp
          simp only [beq_iff_eq]
          omega
        rw [hz]
        have h2 := ih (ci + 1) i
        omega

/-- C5: `generateReview` tries only the stored configurations that are
active with a non-blank API key, in ascending priority order, makes at
most `maxRetries` LLM calls per such configuration, and makes at most
`(number of configurations) * maxRetries` calls in total. -/
theorem claim_C5_retry_budget_and_order :
    ∀ (request : ReviewRequest) (maxRetries : Nat)
      (storedConfigs : List ApiConfiguration)
      (oracle : Nat → Nat → Option String) (used : List String)
      (langPick fbPick timestamp : Nat),
      (generateReview request maxRetries storedConfigs oracle used langPick
          fbPick timestamp).snd.length ≤
        (getActiveApiConfigs storedConfigs).length * maxRetries
      ∧ (∀ i, ((generateReview request maxRetries storedConfigs oracle used
          langPick fbPick timestamp).snd.countP (fun p => p.fst == i)) ≤
            maxRetries)
      ∧ List.Sorted cfgLe (getActiveApiConfigs storedConfigs)
      ∧ (∀ c ∈ getActiveApiConfigs storedConfigs,
          c.isActive = true ∧ jsTrim c.apiKey ≠ "")
      ∧ (getActiveApiConfigs storedConfigs).Perm
          (storedConfigs.filter (fun c => c.isActive && jsTrim c.apiKey != "")) := by
  intro request maxRetries storedConfigs oracle used langPick fbPick timestamp
  have htr :
      (generateReview request maxRetries storedConfigs oracle used langPick
        fbPick timestamp).snd = [] ∨
      (generateReview request maxRetries storedConfigs oracle used langPick
        fbPick timestamp).snd =
        (runConfigs oracle
          (request.language.getD
            (languageOptions.getD (langPick % languageOptions.length)
              "English"))
          request.starRating maxRetries used 0
          (getActiveApiConfigs storedConfigs).length).snd := by
    unfold generateReview
    dsimp only
    split
    · exact Or.inl rfl
    · split
      · exact Or.inr rfl
      · exact Or.inr rfl
  refine ⟨?_, ?_, ?_, ?_, ?_⟩
  · rcases htr with h | h <;> rw [h]
    · simp
    · exact runConfigs_trace_length _ 0
  · intro i
    rcases htr with h | h <;> rw [h]
    · simp
    · exact runConfigs_trace_countP _ 0 i
  · exact List.sorted_insertionSort cfgLe _
  · intro c hc
    unfold getActiveApiConfigs at hc
    rw [(List.perm_insertionSort cfgLe _).mem_iff] at hc
    obtain ⟨-, hpred⟩ := List.mem_filter.1 hc
    rw [Bool.and_eq_true] at hpred
    exact ⟨hpred.1, bne_iff_ne.1 hpred.2⟩
  · exact List.perm_insertionSort cfgLe _

/-- Concrete instance of `claim_C5_retry_budget_and_order`. -/
theorem claim_C5_witness :
    demoConfig.isActive = true ∧ jsTrim demoConfig.apiKey ≠ "" :=
  (claim_C5_retry_budget_and_order demoRequest 5 [demoConfig]
    (fun _ _ => none) [] 0 0 0).2.2.2.1 demoConfig (by decide)

/-! ### Persistence layer (`storage.ts`)

localStorage is modelled as the parsed list of cards stored under
`scc_review_cards`; the possibility that `localStorage.getItem` /
`JSON.parse` or `localStorage.setItem` throws is modelled by the fault
flags `getFault` / `setFault` — the source catches both, returning `[]`
resp. leaving the store unchanged.  Supabase calls are asynchronous I/O;
their three observable outcomes (success, query error object, thrown
connection error) are modelled by outcome values, and
`isSupabaseConfigured()` by the `configured` flag. -/

/-- Embedding of the `ReviewCard` interface.  The optional TS fields
`description` and `location` are strings with `""` for a missing value
(the source only tests them for JS falsiness, which identifies the two);
`services` stays an `Option` because an array — even an empty one — is
truthy while a missing field is not. -/
structure ReviewCard where
  id : String
  businessName : String
  category : String
  type : String
  description : String
  location : String
  services : Option (List String)
  slug : String
  logoUrl : String
  googleMapsUrl : String
  createdAt : String
  updatedAt : String
deriving DecidableEq, Repr

/-- A row of the `review_cards` table, with nullable columns as
`Option`s. -/
structure DbRow where
  id : String
  business_name : String
  category : String
  type : String
  description : Option String
  location : Option String
  services : Option (List String)
  slug : String
  logo_url : Option String
  google_maps_url : String
  created_at : String
  updated_at : String
deriving DecidableEq, Repr

/-- A hexadecimal digit (the regex is case-insensitive). -/
def isHexDigit (c : Char) : Bool :=
  c.isDigit || ('a' ≤ c && c ≤ 'f') || ('A' ≤ c && c ≤ 'F')

/-- The `[1-5]` version digit of the UUID regex. -/
def isUuidVersion (c : Char) : Bool := '1' ≤ c && c ≤ '5'

/-- The `[89ab]` variant digit of the UUID regex (case-insensitive). -/
def isUuidVariant (c : Char) : Bool :=
  c = '8' || c = '9' || c = 'a' || c = 'b' || c = 'A' || c = 'B'

def isDash (c : Char) : Bool := c = '-'

/-- Match a list of character classes against a whole string. -/
def matchClasses : List (Char → Bool) → List Char → Bool
  | [], [] => true
  | p :: ps, c :: cs => p c && matchClasses ps cs
  | _, _ => false

/-- Embedding of `isValidUuid`: the anchored case-insensitive regex
`^[0-9a-f]{8}-[0-9a-f]{4}-[1-5][0-9a-f]{3}-[89ab][0-9a-f]{3}-[0-9a-f]{12}$`. -/
def isValidUuid (id : String) : Bool :=
  matchClasses
    (List.replicate 8 isHexDigit ++ [isDash] ++
     List.replicate 4 isHexDigit ++ [isDash] ++
     [isUuidVersion] ++ List.replicate 3 isHexDigit ++ [isDash] ++
     [isUuidVariant] ++ List.replicate 3 isHexDigit ++ [isDash] ++
     List.replicate 12 isHexDigit)
    id.toList

/-- Embedding of `transformDbRowToCard`: `row.x || y` maps a null (or
empty) column to the default. -/
def transformDbRowToCard (row : DbRow) : ReviewCard :=
  { id := row.id
    businessName := row.business_name
    category := row.category
    type := row.type
    description := row.description.getD ""
    location := row.location.getD ""
    services := some (row.services.getD [])
    slug := row.slug
    logoUrl := row.logo_url.getD ""
    googleMapsUrl := row.google_maps_url
    createdAt := row.created_at
    updatedAt := row.updated_at }

/-- The insert payload built by `transformCardToDbInsert`; `id : Option`
records whether the `id` key is present at all. -/
structure DbInsertPayload where
  id : Option String
  business_name : String
  category : String
  type : String
  description : Option String
  location : Option String
  services : Option (List String)
  slug : String
  logo_url : Option String
  google_maps_url : String
  created_at : String
  updated_at : String
deriving DecidableEq, Repr

/-- Embedding of `transformCardToDbInsert`.  `now` is
`new Date().toISOString()`; `x || null` sends the empty string to null;
`card.services || null` keeps the array (arrays are truthy in JS, even
empty ones) and maps a missing field to null; the `id` key is included
exactly when `isValidUuid(card.id)` holds. -/
def transformCardToDbInsert (now : String) (card : ReviewCard) :
    DbInsertPayload :=
  { id := if isValidUuid card.id then some card.id else none
    business_name := card.businessName
    category := card.category
    type := card.type
    description := if card.description = "" then none else some card.description
    location := if card.location = "" then none else some card.location
    services := card.services
    slug := card.slug
    logo_url := if card.logoUrl = "" then none else some card.logoUrl
    google_maps_url := card.googleMapsUrl
    created_at := if card.createdAt = "" then now else card.createdAt
    updated_at := if card.updatedAt = "" then now else card.updatedAt }

/-- The parsed contents of the `scc_review_cards` localStorage key. -/
structure LocalStore where
  cards : List ReviewCard
deriving DecidableEq, Repr

/-- Embedding of `storage._getLocalCards`: a throwing `getItem`/parse is
caught and yields `[]`. -/
def getLocalCards (getFault : Bool) (st : LocalStore) : List ReviewCard :=
  if getFault then [] else st.cards

/-- Embedding of `storage._saveLocalCards`: a throwing `setItem` is caught
and leaves the store unchanged. -/
def saveLocalCards (setFault : Bool) (st : LocalStore)
    (cards : List ReviewCard) : LocalStore :=
  if setFault then st else { cards := cards }

/-- Embedding of `storage._addLocalCard`: read, `unshift`, save. -/
def addLocalCard (getFault setFault : Bool) (st : LocalStore)
    (card : ReviewCard) : LocalStore :=
  saveLocalCards setFault st (card :: getLocalCards getFault st)

/-- Observable outcome of the Supabase `upsert` in `addCard`. -/
inductive UpsertOutcome where
  | ok
  | dbError
  | connThrow
deriving DecidableEq, Repr

/-- Observable outcome of the Supabase select in `getCards`: a successful
query carries the table contents. -/
inductive QueryOutcome where
  | ok (table : List DbRow)
  | dbError
  | connThrow
deriving DecidableEq, Repr

/-- Embedding of `storage.addCard`: save to localStorage first, then
best-effort Supabase upsert whose error (or thrown connection failure) is
logged and swallowed.  The outer catch that returns `false` is
unreachable in this model: every modelled failure — localStorage faults
and all Supabase outcomes — is caught inside the `try` block. -/
def addCard (card : ReviewCard) (configured : Bool)
    (outcome : UpsertOutcome) (getFault setFault : Bool) (st : LocalStore) :
    LocalStore × Bool :=
  let st1 := addLocalCard getFault setFault st card
  if configured then
    match outcome with
    | UpsertOutcome.ok => (st1, true)
    | UpsertOutcome.dbError => (st1, true)
    | UpsertOutcome.connThrow => (st1, true)
  else (st1, true)

/-- The `ORDER BY created_at DESC` of the `getCards` select, as a
relation on rows (ISO timestamps compare lexicographically). -/
def createdDesc (a b : DbRow) : Prop := b.created_at ≤ a.created_at

instance : DecidableRel createdDesc :=
  fun a b => decidable_of_iff (b.created_at ≤ a.created_at) Iff.rfl

instance : IsTotal DbRow createdDesc :=
  ⟨fun a b => le_total b.created_at a.created_at⟩

instance : IsTrans DbRow createdDesc :=
  ⟨fun _ _ _ hab hbc => le_trans hbc hab⟩

/-- Embedding of `storage.getCards`: when configured and the query
succeeds, transform the rows (delivered in descending `created_at` order),
cache them in localStorage and return them; on a query error, a thrown
connection failure, or when Supabase is not configured, return the
localStorage cards and leave the store unchanged. -/
def getCards (configured : Bool) (q : QueryOutcome)
    (getFault setFault : Bool) (st : LocalStore) :
    List ReviewCard × LocalStore :=
  if configured then
    match q with
    | QueryOutcome.ok table =>
      let supabaseCards :=
        (List.insertionSort createdDesc table).map transformDbRowToCard
      (supabaseCards, saveLocalCards setFault st supabaseCards)
    | QueryOutcome.dbError => (getLocalCards getFault st, st)
    | QueryOutcome.connThrow => (getLocalCards getFault st, st)
  else (getLocalCards getFault st, st)

/-- C6: `addCard` performs the localStorage write first and returns
`true` regardless of the Supabase outcome (upsert error and thrown
connection failure included); when the localStorage backend does not
fault, the new card is prepended; and a `false` return could only arise
from a localStorage write that throws out of the `try` block (which never
happens, every modelled fault being caught inside). -/
theorem claim_C6_addCard_swallows_errors :
    ∀ (card : ReviewCard) (configured : Bool) (outcome : UpsertOutcome)
      (getFault setFault : Bool) (st : LocalStore),
      addCard card configured outcome getFault setFault st =
        (addLocalCard getFault setFault st card, true)
      ∧ (setFault = false →
          (addCard card configured outcome getFault setFault st).fst.cards =
            card :: getLocalCards getFault st)
      ∧ ((addCard card configured outcome getFault setFault st).snd = false →
          setFault = true) := by
  intro card configured outcome getFault setFault st
  have h1 : addCard card configured outcome getFault setFault st =
      (addLocalCard getFault setFault st card, true) := by
    cases configured <;> cases outcome <;> rfl
  refine ⟨h1, ?_, ?_⟩
  · intro hs
    subst hs
    rw [h1]
    unfold addLocalCard saveLocalCards
    simp
  · intro hfalse
    rw [h1] at hfalse
    simp at hfalse

/-- A concrete card. -/
def demoCard : ReviewCard :=
  { id := "not-a-uuid", businessName := "Smit Hospital",
    category := "Health & Medical", type := "Gynecological Hospital",
    description := "", location := "Varachha, Surat",
    services := some ["Maternity Services"], slug := "smit-hospital",
    logoUrl := "", googleMapsUrl := "https://maps.google.com/x",
    createdAt := "2025-08-05T07:43:14.000Z",
    updatedAt := "2025-08-05T07:43:14.000Z" }

/-- Concrete instance of `claim_C6_addCard_swallows_errors`: a failing
upsert still reports success and the card is in localStorage. -/
theorem claim_C6_witness :
    (addCard demoCard true UpsertOutcome.dbError false false
        { cards := [] }).fst.cards =
      demoCard :: getLocalCards false { cards := [] } :=
  (claim_C6_addCard_swallows_errors demoCard true UpsertOutcome.dbError
    false false { cards := [] }).2.1 rfl

/-- C7: when Supabase is configured and the query succeeds, `getCards`
returns the transformed rows in descending `created_at` order — a
permutation of the whole table — and overwrites the localStorage cache
with exactly that list; when Supabase is not configured, the query errors,
or the connection throws, it returns the localStorage cards and leaves the
store unchanged. -/
theorem claim_C7_getCards_sync_or_fallback :
    ∀ (table : List DbRow) (q : QueryOutcome) (getFault setFault : Bool)
      (st : LocalStore),
      ((getCards true (QueryOutcome.ok table) getFault false st).snd.cards =
          (getCards true (QueryOutcome.ok table) getFault false st).fst
        ∧ (getCards true (QueryOutcome.ok table) getFault false
            st).fst.Pairwise (fun a b => b.createdAt ≤ a.createdAt)
        ∧ ((getCards true (QueryOutcome.ok table) getFault false
            st).fst).Perm (table.map transformDbRowToCard))
      ∧ getCards false q getFault setFault st = (getLocalCards getFault st, st)
      ∧ getCards true QueryOutcome.dbError getFault setFault st =
          (getLocalCards getFault st, st)
      ∧ getCards true QueryOutcome.connThrow getFault setFault st =
          (getLocalCards getFault st, st)
      ∧ (getFault = false → getLocalCards getFault st = st.cards) := by
  intro table q getFault setFault st
  refine ⟨⟨rfl, ?_, ?_⟩, rfl, rfl, rfl, ?_⟩
  · show ((List.insertionSort createdDesc table).map
      transformDbRowToCard).Pairwise (fun a b => b.createdAt ≤ a.createdAt)
    rw [List.pairwise_map]
    exact List.sorted_insertionSort createdDesc table
  · show ((List.insertionSort createdDesc table).map
      transformDbRowToCard).Perm (table.map transformDbRowToCard)
    exact (List.perm_insertionSort createdDesc table).map transformDbRowToCard
  · intro hg
    subst hg
    rfl

/-- Concrete instance of `claim_C7_getCards_sync_or_fallback`. -/
theorem claim_C7_witness :
    getLocalCards false { cards := [demoCard] } =
      ({ cards := [demoCard] } : LocalStore).cards :=
  (claim_C7_getCards_sync_or_fallback [] QueryOutcome.dbError false false
    { cards := [demoCard] }).2.2.2.2 rfl

/-- C10: the insert payload carries the card's `id` exactly when the id
matches the canonical UUID regex, and every other field of the payload is
the same in both cases. -/
theorem claim_C10_insert_id_iff_valid_uuid :
    ∀ (card : ReviewCard) (now : String),
      ((transformCardToDbInsert now card).id = some card.id ↔
        isValidUuid card.id = true)
      ∧ ((transformCardToDbInsert now card).id = none ↔
        isValidUuid card.id = false)
      ∧ (transformCardToDbInsert now card).business_name = card.businessName
      ∧ (transformCardToDbInsert now card).category = card.category
      ∧ (transformCardToDbInsert now card).type = card.type
      ∧ (transformCardToDbInsert now card).description =
          (if card.description = "" then none else some card.description)
      ∧ (transformCardToDbInsert now card).location =
          (if card.location = "" then none else some card.location)
      ∧ (transformCardToDbInsert now card).services = card.services
      ∧ (transformCardToDbInsert now card).slug = card.slug
      ∧ (transformCardToDbInsert now card).logo_url =
          (if card.logoUrl = "" then none else some card.logoUrl)
      ∧ (transformCardToDbInsert now card).google_maps_url =
          card.googleMapsUrl
      ∧ (transformCardToDbInsert now card).created_at =
          (if card.createdAt = "" then now else card.createdAt)
      ∧ (transformCardToDbInsert now card).updated_at =
          (if card.updatedAt = "" then now else card.updatedAt) := by
  intro card now
  by_cases h : isValidUuid card.id = true
  · simp [transformCardToDbInsert, h]
  · have h' : isValidUuid card.id = false := by
      revert h
      cases isValidUuid card.id <;> simp
    simp [transformCardToDbInsert, h']

/-! ### Authentication (`auth.ts`) -/

/-- Embedding of `auth.login`: compare against the fixed configured
credentials (`VITE_ADMIN_MOBILE` / `VITE_ADMIN_PASSWORD`, with hardcoded
defaults), and on success write `'true'` under the session key.  The
session is the value stored under `review_admin_auth`, `none` when the
key is absent. -/
def authLogin (adminMobile adminPassword mobile password : String)
    (session : Option String) : Bool × Option String :=
  if mobile = adminMobile ∧ password = adminPassword then (true, some "true")
  else (false, session)

/-- Embedding of `auth.logout`: remove the session key. -/
def authLogout (_session : Option String) : Option String := none

/-- Embedding of `auth.isAuthenticated`:
`sessionStorage.getItem(AUTH_KEY) === 'true'`. -/
def isAuthenticated (session : Option String) : Bool :=
  session == some "true"

/-- C8: `login` succeeds exactly on the configured mobile/password pair;
on success the session is marked so `isAuthenticated` holds afterwards, on
failure the session is untouched, and after `logout` the session is not
authenticated. -/
theorem claim_C8_login_iff_fixed_credentials :
    ∀ (adminMobile adminPassword mobile password : String)
      (session : Option String),
      ((authLogin adminMobile adminPassword mobile password session).fst =
          true ↔ (mobile = adminMobile ∧ password = adminPassword))
      ∧ ((authLogin adminMobile adminPassword mobile password session).fst =
          true →
          isAuthenticated (authLogin adminMobile adminPassword mobile
            password session).snd = true)
      ∧ ((authLogin adminMobile adminPassword mobile password session).fst =
          false →
          (authLogin adminMobile adminPassword mobile password session).snd =
            session)
      ∧ isAuthenticated (authLogout session) = false := by
  intro adminMobile adminPassword mobile password session
  by_cases h : mobile = adminMobile ∧ password = adminPassword
  · refine ⟨?_, ?_, ?_, rfl⟩
    · rw [authLogin, if_pos h]
      simp [h]
    · intro _
      rw [authLogin, if_pos h]
      decide
    · intro hfalse
      rw [authLogin, if_pos h] at hfalse
      simp at hfalse
  · refine ⟨?_, ?_, ?_, rfl⟩
    · rw [authLogin, if_neg h]
      simp [h]
    · intro htrue
      rw [authLogin, if_neg h] at htrue
      simp at htrue
    · intro _
      rw [authLogin, if_neg h]

/-- Concrete instance of `claim_C8_login_iff_fixed_credentials` at the
hardcoded default credentials. -/
theorem claim_C8_witness :
    isAuthenticated
      (authLogin "9426479677" "yash@123" "9426479677" "yash@123" none).snd =
      true :=
  (claim_C8_login_iff_fixed_credentials "9426479677" "yash@123" "9426479677"
    "yash@123" none).2.1 (by decide)

/-! ### Tag editing (`TagInput.tsx`) -/

/-- The tag-commit logic shared by the Enter handler and the add button of
`TagInput`: ignore blank input, trim and lowercase the value, and append
it only when not already present. -/
def commitTag (tags : List String) (inputValue : String) : List String :=
  if jsTrim inputValue = "" then tags
  else
    let newTag := jsToLower (jsTrim inputValue)
    if tags.contains newTag then tags else tags ++ [newTag]

/-- Embedding of `removeTag`: keep the tags different from the chosen
one. -/
def removeTag (tags : List String) (tagToRemove : String) : List String :=
  tags.filter (fun tag => tag != tagToRemove)

/-- C9: committing a tag trims and lowercases it, never adds a tag that is
already present, and preserves freedom from duplicates; removal deletes
exactly the occurrences of the chosen tag and also preserves the
invariant. -/
theorem claim_C9_tag_list_nodup :
    ∀ (tags : List String) (inputValue tagToRemove : String),
      (tags.Nodup → (commitTag tags inputValue).Nodup)
      ∧ (commitTag tags inputValue = tags ∨
          (commitTag tags inputValue =
              tags ++ [jsToLower (jsTrim inputValue)]
            ∧ jsToLower (jsTrim inputValue) ∉ tags
            ∧ jsTrim inputValue ≠ ""))
      ∧ (jsToLower (jsTrim inputValue) ∈ tags →
          commitTag tags inputValue = tags)
      ∧ (∀ x, x ∈ removeTag tags tagToRemove ↔
          x ∈ tags ∧ x ≠ tagToRemove)
      ∧ (tags.Nodup → (removeTag tags tagToRemove).Nodup) := by
  intro tags inputValue tagToRemove
  by_cases h1 : jsTrim inputValue = ""
  · refine ⟨?_, Or.inl ?_, ?_, ?_, ?_⟩
    · intro hnd
      rw [commitTag, if_pos h1]
      exact hnd
    · rw [commitTag, if_pos h1]
    · intro _
      rw [commitTag, if_pos h1]
    · intro x
      simp [removeTag, List.mem_filter, bne_iff_ne]
    · intro hnd
      exact hnd.filter _
  · by_cases h2 : tags.contains (jsToLower (jsTrim inputValue))
    · have hmem : jsToLower (jsTrim inputValue) ∈ tags := List.elem_iff.1 h2
      refine ⟨?_, Or.inl ?_, ?_, ?_, ?_⟩
      · intro hnd
        rw [commitTag, if_neg h1]
        rw [if_pos h2]
        exact hnd
      · rw [commitTag, if_neg h1]
        rw [if_pos h2]
      · intro _
        rw [commitTag, if_neg h1]
        rw [if_pos h2]
      · intro x
        simp [removeTag, List.mem_filter, bne_iff_ne]
      · intro hnd
        exact hnd.filter _
    · have hmem : jsToLower (jsTrim inputValue) ∉ tags :=
        fun hm => h2 (List.elem_iff.2 hm)
      refine ⟨?_, Or.inr ⟨?_, hmem, h1⟩, ?_, ?_, ?_⟩
      · intro hnd
        rw [commitTag, if_neg h1]
        rw [if_neg h2]
        simp [List.nodup_append, hnd, hmem, List.disjoint_singleton]
      · rw [commitTag, if_neg h1]
        rw [if_neg h2]
      · intro hm
        exact absurd hm hmem
      · intro x
        simp [removeTag, List.mem_filter, bne_iff_ne]
      · intro hnd
        exact hnd.filter _

/-- Concrete instance of `claim_C9_tag_list_nodup`. -/
theorem claim_C9_witness :
    (commitTag ["staff"] "  Food Quality ").Nodup :=
  (claim_C9_tag_list_nodup ["staff"] "  Food Quality " "staff").1 (by decide)
